import Mathlib

/-!
Verification of the routing store, ID issuer and shutdown coordinator of
`devtools/mocktwilio/server.go` (package `mocktwilio`).

Shallow-embedding conventions:

* Go maps (`numbersDB`, `msgSvcDB`) are modelled as partial functions
  `String → Option _`.  The Go code stores `*Number` pointers in both
  `numbersDB` and the member lists of `msgSvcDB`; every pointer kept in a
  member list is exactly the pointer stored in `numbersDB` under the number's
  own string (it is obtained via `numDB[nStr]` or inserted there in the same
  iteration), so services are modelled as lists of number keys and
  dereferenced through `numbersDB` at read time — which gives exactly the Go
  pointer-aliasing semantics observed by `number`/`numberSvc`.
* External collaborators (`libphonenumber.Parse`, `url.Parse`) are modelled
  as an abstract `Collab` record; the in-repository wrappers (`validateURL`, the
  scheme check) are translated literally on top of it.
* `fmt.Sprintf("%032d", v)` with `v` a `uint64` is modelled by an explicit
  decimal rendering (`sprintf032`); the `uint64` counter of `nextID` is a
  `Nat` reduced modulo `2^64` at each atomic increment.
* The `Close`/`loop` shutdown protocol is modelled as a small labelled
  transition system; see the comments at `SysState`.
-/

/-- `Number` from server.go: a mock phone number (string identity plus the
two optional webhook URLs). -/
structure Number where
  number : String
  voiceWebhookURL : String
  smsWebhookURL : String
deriving DecidableEq, Repr

/-- `MsgService` from server.go: a messaging service (SID with mandatory
`MG` marker at the front, member number strings, optional SMS webhook URL
that takes precedence over the members' own). -/
structure MsgService where
  id : String
  numbers : List String
  smsWebhookURL : String
deriving DecidableEq, Repr

/-- The distinct error values produced by `AddNumber` / `AddMsgService` /
`validateURL` (each constructor corresponds to one `fmt.Errorf`/`errors.Errorf`
site in server.go, carrying the offending string). -/
inductive Err where
  | urlParse (s : String)
  | urlMissingScheme (s : String)
  | invalidPhone (s : String)
  | numberExists (s : String)
  | invalidSvcID (s : String)
  | svcExists (s : String)
deriving DecidableEq, Repr

/-- Classification of the error values: the spec's `ValidationError` kinds
(malformed number, bad URL, bad service SID) versus the `DuplicateError`
kinds (`numberExists`, `svcExists`). -/
def Err.isValidation : Err → Bool
  | .urlParse _ => true
  | .urlMissingScheme _ => true
  | .invalidPhone _ => true
  | .invalidSvcID _ => true
  | .numberExists _ => false
  | .svcExists _ => false

/-- The external collaborators of the store (out of scope per the spec):
`phoneOK s` holds iff `libphonenumber.Parse(s, "")` succeeds; `urlScheme s`
is `none` when `url.Parse(s)` fails and otherwise `some` of the parsed
`Scheme` field. -/
structure Collab where
  phoneOK : String → Bool
  urlScheme : String → Option String

/-- `validateURL` from server.go: parse the URL, then reject an empty
scheme. -/
def validateURL (cx : Collab) (s : String) : Option Err :=
  match cx.urlScheme s with
  | none => some (Err.urlParse s)
  | some sch => if sch = "" then some (Err.urlMissingScheme s) else none

/-- `strings.HasPrefix(s, pre)` (Go standard library): `s` begins with the
bytes of `pre`. -/
def goHasPre (s pre : String) : Bool :=
  s.data.take pre.data.length == pre.data

/-- The two routing tables of `Server`: `numbersDB chan map[string]*Number`
and `msgSvcDB chan map[string][]*Number` (with member lists kept as number
keys, see the header comment). -/
structure Store where
  numbersDB : String → Option Number
  msgSvcDB : String → Option (List String)

/-- `Server.number` from server.go: lookup of a number by its string. -/
def Store.number (st : Store) (s : String) : Option Number :=
  st.numbersDB s

/-- `Server.numberSvc` from server.go: the member `*Number`s of a service
(`nil` slice for an unknown SID), dereferenced through `numbersDB`. -/
def Store.numberSvc (st : Store) (id : String) : List Number :=
  ((st.msgSvcDB id).getD []).filterMap st.numbersDB

/-- `Server.AddNumber` from server.go.  The Go method mutates `srv` and
returns `error`; here the pair is (returned error, post-state of the two
tables).  Checks in source order: phone parse, SMS URL (when non-empty),
voice URL (when non-empty), duplicate key; only then the insert. -/
def AddNumber (cx : Collab) (st : Store) (n : Number) : Option Err × Store :=
  if cx.phoneOK n.number = false then (some (Err.invalidPhone n.number), st)
  else
    match (if n.smsWebhookURL ≠ "" then validateURL cx n.smsWebhookURL else none) with
    | some e => (some e, st)
    | none =>
      match (if n.voiceWebhookURL ≠ "" then validateURL cx n.voiceWebhookURL else none) with
      | some e => (some e, st)
      | none =>
        if (st.numbersDB n.number).isSome then (some (Err.numberExists n.number), st)
        else (none, { st with numbersDB := fun k => if k = n.number then some n else st.numbersDB k })

/-- The fresh `&Number{Number: nStr}` record created by `AddMsgService` for
a member that is not yet registered. -/
def bareNumber (k : String) : Number :=
  { number := k, voiceWebhookURL := "", smsWebhookURL := "" }

/-- The effect of the tail of the `AddMsgService` member loop on one record:
`if ms.SMSWebhookURL == "" { continue }; n.SMSWebhookURL = ms.SMSWebhookURL`. -/
def msApply (ms : MsgService) (n : Number) : Number :=
  if ms.smsWebhookURL = "" then n else { n with smsWebhookURL := ms.smsWebhookURL }

/-- One iteration of the `for _, nStr := range ms.Numbers` loop of
`AddMsgService`: fetch-or-create the member record, append it to the
service's member list, and (when the service has an override) overwrite the
record's `SMSWebhookURL` in place. -/
def msLoopStep (ms : MsgService) (st : Store) (k : String) : Store :=
  { numbersDB := fun x =>
      if x = k then some (msApply ms ((st.numbersDB k).getD (bareNumber k)))
      else st.numbersDB x,
    msgSvcDB := fun x =>
      if x = ms.id then some ((st.msgSvcDB ms.id).getD [] ++ [k])
      else st.msgSvcDB x }

/-- `Server.AddMsgService` from server.go.  Checks in source order: `MG`
marker on the SID, service URL (when non-empty), each member phone (first
failure wins), duplicate SID; only then the member loop. -/
def AddMsgService (cx : Collab) (st : Store) (ms : MsgService) : Option Err × Store :=
  if goHasPre ms.id "MG" = false then (some (Err.invalidSvcID ms.id), st)
  else
    match (if ms.smsWebhookURL ≠ "" then validateURL cx ms.smsWebhookURL else none) with
    | some e => (some e, st)
    | none =>
      match ms.numbers.find? (fun s => !cx.phoneOK s) with
      | some s => (some (Err.invalidPhone s), st)
      | none =>
        if (st.msgSvcDB ms.id).isSome then (some (Err.svcExists ms.id), st)
        else (none, ms.numbers.foldl (msLoopStep ms) st)

/-- The modulus of Go's `uint64` (`2^64`), the type of `srv.id`. -/
def uint64Mod : Nat := 18446744073709551616

/-- The decimal digit characters used by `fmt.Sprintf("%d", ...)`. -/
def natDigitChar : Nat → Char
  | 0 => '0'
  | 1 => '1'
  | 2 => '2'
  | 3 => '3'
  | 4 => '4'
  | 5 => '5'
  | 6 => '6'
  | 7 => '7'
  | 8 => '8'
  | _ => '9'

/-- The decimal digits of `n`, most significant first, as written by
`fmt.Sprintf("%d", n)`. -/
def natDecimal (n : Nat) : List Char :=
  if _h : n < 10 then [natDigitChar n]
  else natDecimal (n / 10) ++ [natDigitChar (n % 10)]
decreasing_by exact Nat.div_lt_self (by omega) (by omega)

/-- `fmt.Sprintf("%032d", n)`: the decimal digits of `n` left-padded with
`'0'` to a width of 32. -/
def sprintf032 (n : Nat) : String :=
  ⟨List.replicate (32 - (natDecimal n).length) '0' ++ natDecimal n⟩

/-- `Server.nextID` from server.go: `fmt.Sprintf("%s%032d", prefix,
atomic.AddUint64(&srv.id, 1))`.  The input is the current value of the
`uint64` counter `srv.id`; the result pairs the issued ID with the new
counter value. -/
def nextID (pre : String) (id : Nat) : String × Nat :=
  (pre ++ sprintf032 ((id + 1) % uint64Mod), (id + 1) % uint64Mod)

/-- The value of `srv.id` after `k` calls to `nextID` on a fresh server
(`NewServer` leaves `id` at its zero value). -/
def idCounterAfter : Nat → Nat
  | 0 => 0
  | k + 1 => (idCounterAfter k + 1) % uint64Mod

/-- The ID issued by the `(k+1)`-st call to `nextID` (0-indexed call `k`)
on a fresh server. -/
def issuedID (pre : String) (k : Nat) : String :=
  (nextID pre (idCounterAfter k)).1

/-- Reading a digit list back as a number (the inverse used to reason about
`sprintf032`): fold each digit into an accumulator. -/
def decFrom (a : Nat) (l : List Char) : Nat :=
  l.foldl (fun b c => b * 10 + (c.toNat - 48)) a

/-- The numeric value of a decimal digit string (leading zeros ignored). -/
def decodeDecimal (l : List Char) : Nat :=
  decFrom 0 l

/-- Where the `srv.loop()` goroutine stands: still in its `for`/`select`
loop, running its deferred statements (`wg.Wait()`, then `close(srv.msgCh)`,
then `close(srv.shutdownDone)`), or exited. -/
inductive LoopPhase where
  | running
  | defers
  | exited
deriving DecidableEq, Repr

/-- Shared state of the `Close`/`loop` shutdown protocol of server.go,
abstracting exactly the variables those two functions touch:
`onceUsed`/`shutdownCount` model `srv.once` (`sync.Once`), `shutdownClosed`
and `doneClosed` and `msgChClosed` model whether the `srv.shutdown`,
`srv.shutdownDone` and `srv.msgCh` channels have been closed, `tasks` is the
counter of the loop's local `wg` (`sync.WaitGroup`, one unit per spawned
lifecycle goroutine), `waiters`/`returned` count `Close` callers blocked on
`<-srv.shutdownDone` resp. already returned, and `panicked` records a
double close of a channel (a Go runtime panic). -/
structure SysState where
  loopPhase : LoopPhase
  onceUsed : Bool
  shutdownClosed : Bool
  shutdownCount : Nat
  tasks : Nat
  waiters : Nat
  returned : Nat
  msgChClosed : Bool
  doneClosed : Bool
  panicked : Bool
deriving DecidableEq, Repr

/-- The state right after `NewServer`: loop running, channels open, no
tasks, no `Close` callers. -/
def initState : SysState :=
  { loopPhase := .running, onceUsed := false, shutdownClosed := false,
    shutdownCount := 0, tasks := 0, waiters := 0, returned := 0,
    msgChClosed := false, doneClosed := false, panicked := false }

/-- A `Close()` call whose `srv.once.Do` executes the body: `close(srv.shutdown)`
runs (a panic if that channel were already closed), then the caller blocks on
`<-srv.shutdownDone`. -/
def closeFirstEff (s : SysState) : SysState :=
  { s with
    onceUsed := true, panicked := s.panicked || s.shutdownClosed,
    shutdownClosed := true, shutdownCount := s.shutdownCount + 1,
    waiters := s.waiters + 1 }

/-- A `Close()` call whose `srv.once.Do` skips the body (already used): the
caller goes straight to blocking on `<-srv.shutdownDone`. -/
def closeAgainEff (s : SysState) : SysState :=
  { s with waiters := s.waiters + 1 }

/-- The loop's `select` takes the `<-srv.shutdown` branch and `return`s,
entering the deferred statements. -/
def loopExitEff (s : SysState) : SysState :=
  { s with loopPhase := .defers }

/-- The loop's `select` takes the `<-srv.outboundMsgCh` branch: `wg.Add(1)`
and a lifecycle goroutine is spawned. -/
def spawnEff (s : SysState) : SysState :=
  { s with tasks := s.tasks + 1 }

/-- A spawned lifecycle goroutine finishes and calls `wg.Done()`. -/
def taskDoneEff (s : SysState) : SysState :=
  { s with tasks := s.tasks - 1 }

/-- The deferred `wg.Wait()` returns (counter at zero) and the remaining
defers run: `close(srv.msgCh)` then `close(srv.shutdownDone)` (a panic if
either were already closed). -/
def finishDefersEff (s : SysState) : SysState :=
  { s with
    loopPhase := .exited,
    panicked := s.panicked || s.msgChClosed || s.doneClosed,
    msgChClosed := true, doneClosed := true }

/-- A `Close` caller blocked on `<-srv.shutdownDone` is released by the
closed channel and returns. -/
def closeReturnEff (s : SysState) : SysState :=
  { s with waiters := s.waiters - 1, returned := s.returned + 1 }

/-- One interleaving step of the shutdown protocol.  The `select` in `loop`
chooses nondeterministically among its ready branches, so `spawn` stays
enabled while the loop runs even after `srv.shutdown` is closed; lifecycle
goroutines finish at arbitrary times; `sync.Once.Do` is atomic (its body is
a single `close`). -/
inductive SysStep : SysState → SysState → Prop
  | closeFirst (s : SysState) (h : s.onceUsed = false) : SysStep s (closeFirstEff s)
  | closeAgain (s : SysState) (h : s.onceUsed = true) : SysStep s (closeAgainEff s)
  | loopExit (s : SysState) (h1 : s.loopPhase = .running)
      (h2 : s.shutdownClosed = true) : SysStep s (loopExitEff s)
  | spawn (s : SysState) (h : s.loopPhase = .running) : SysStep s (spawnEff s)
  | taskDone (s : SysState) (h : 0 < s.tasks) : SysStep s (taskDoneEff s)
  | finishDefers (s : SysState) (h1 : s.loopPhase = .defers)
      (h2 : s.tasks = 0) : SysStep s (finishDefersEff s)
  | closeReturn (s : SysState) (h1 : s.doneClosed = true)
      (h2 : 0 < s.waiters) : SysStep s (closeReturnEff s)

/-- States reachable from the fresh-server state. -/
inductive SysReach : SysState → Prop
  | init : SysReach initState
  | step {s t : SysState} : SysReach s → SysStep s t → SysReach t

/-- Zero or more interleaving steps. -/
def SysSteps : SysState → SysState → Prop :=
  Relation.ReflTransGen SysStep

/-- Concrete external collaborators for the concrete instantiations: a small
table of phone numbers the parser accepts and of URLs with their parsed
schemes (everything else fails to parse). -/
def collabT : Collab :=
  { phoneOK := fun s => s = "+15550001234" || s = "+15550005678" || s = "+15550009999",
    urlScheme := fun s =>
      if s = "http://test/hook" then some "http"
      else if s = "http://svc/hook" then some "http"
      else if s = "noscheme" then some ""
      else none }

/-- The empty routing store of a fresh server (`NewServer` seeds both maps
empty). -/
def st0 : Store :=
  { numbersDB := fun _ => none, msgSvcDB := fun _ => none }

/-- A sample number with its own SMS webhook URL. -/
def n1 : Number :=
  { number := "+15550001234", voiceWebhookURL := "", smsWebhookURL := "http://test/hook" }

/-- The store after registering `n1` in the empty store. -/
def st1 : Store := (AddNumber collabT st0 n1).2

/-- Re-registration input with `n1`'s identity but an unparseable webhook
URL. -/
def nBadURL : Number :=
  { number := "+15550001234", voiceWebhookURL := "", smsWebhookURL := "nope" }

/-- A number the external phone parser rejects. -/
def nBadPhone : Number :=
  { number := "bogus", voiceWebhookURL := "", smsWebhookURL := "" }

/-- A sample messaging service with an override URL and one member. -/
def msGood : MsgService :=
  { id := "MG0001", numbers := ["+15550005678"], smsWebhookURL := "http://test/hook" }

/-- The store after registering `n1` and then `msGood`. -/
def st2 : Store := (AddMsgService collabT st1 msGood).2

/-- A service whose override URL differs from its member's own URL and whose
member is already registered (as `n1`). -/
def msOverride : MsgService :=
  { id := "MG0002", numbers := ["+15550001234"], smsWebhookURL := "http://svc/hook" }

/-- A service with no override URL and one unregistered member. -/
def msPlain : MsgService :=
  { id := "MG0003", numbers := ["+15550009999"], smsWebhookURL := "" }

/-- `msApply` is idempotent: re-applying the service override changes
nothing. -/
theorem msApply_idem (ms : MsgService) (n : Number) :
    msApply ms (msApply ms n) = msApply ms n := by
  unfold msApply
  by_cases h : ms.smsWebhookURL = "" <;> simp [h]

/-- Effect of the `AddMsgService` member loop on the numbers table: every
key listed gets the fetched-or-created record with the override applied;
other keys are untouched. -/
theorem msLoop_numbersDB (ms : MsgService) (l : List String) (st : Store) (k : String) :
    (l.foldl (msLoopStep ms) st).numbersDB k =
      if k ∈ l then some (msApply ms ((st.numbersDB k).getD (bareNumber k)))
      else st.numbersDB k := by
  induction l generalizing st with
  | nil => simp
  | cons x xs ih =>
    simp only [List.foldl_cons]
    rw [ih]
    by_cases hk : k = x
    · subst hk
      by_cases hmem : k ∈ xs <;>
        simp [hmem, msLoopStep, msApply_idem, List.mem_cons]
    · by_cases hmem : k ∈ xs <;>
        simp [hmem, msLoopStep, hk, List.mem_cons]

/-- Effect of the `AddMsgService` member loop on the service table at the
service's own SID: the listed keys are appended in order. -/
theorem msLoop_msgSvcDB_self (ms : MsgService) (l : List String) (st : Store) (hne : l ≠ []) :
    (l.foldl (msLoopStep ms) st).msgSvcDB ms.id =
      some ((st.msgSvcDB ms.id).getD [] ++ l) := by
  induction l generalizing st with
  | nil => exact absurd rfl hne
  | cons x xs ih =>
    simp only [List.foldl_cons]
    by_cases hxs : xs = []
    · subst hxs
      simp [msLoopStep]
    · rw [ih _ hxs]
      simp [msLoopStep]

/-- Effect of the `AddMsgService` member loop on the service table at any
other SID: untouched. -/
theorem msLoop_msgSvcDB_other (ms : MsgService) (l : List String) (st : Store) (k : String)
    (hk : k ≠ ms.id) :
    (l.foldl (msLoopStep ms) st).msgSvcDB k = st.msgSvcDB k := by
  induction l generalizing st with
  | nil => rfl
  | cons x xs ih =>
    simp only [List.foldl_cons]
    rw [ih]
    simp [msLoopStep, hk]

/-- C1: for every `Number` accepted by `AddNumber` (no error returned), an
immediately subsequent `number` lookup with the registered identity returns
a record equal to the registered input — same number string, same voice and
SMS webhook URLs. -/
theorem claim_register_lookup_roundtrip (cx : Collab) (st : Store) (n : Number)
    (h : (AddNumber cx st n).1 = none) :
    Store.number (AddNumber cx st n).2 n.number = some n := by
  unfold AddNumber at h ⊢
  split at h
  · simp at h
  · split at h
    · simp_all
    · split at h
      · simp_all
      · split at h
        · simp at h
        · simp_all [Store.number]

/-- C1 witness: registering `n1` in the empty store succeeds and looking it
up returns exactly `n1`. -/
theorem claim_register_lookup_roundtrip_witness :
    Store.number (AddNumber collabT st0 n1).2 n1.number = some n1 :=
  claim_register_lookup_roundtrip collabT st0 n1 rfl

/-- Any error produced by `validateURL` is one of the validation kinds. -/
theorem validateURL_isValidation (cx : Collab) (s : String) (e : Err)
    (h : validateURL cx s = some e) : e.isValidation = true := by
  unfold validateURL at h
  split at h
  · injection h with h
    subst h
    rfl
  · split at h
    · injection h with h
      subst h
      rfl
    · exact absurd h (by simp)

/-- C2 counterexample: in `st1` the identity `+15550001234` is registered,
yet `AddNumber` with that same identity and an unparseable webhook URL
returns the URL validation error, not the duplicate error. -/
theorem claim_duplicate_cex :
    (st1.numbersDB "+15550001234").isSome = true ∧
    nBadURL.number = "+15550001234" ∧
    (AddNumber collabT st1 nBadURL).1 = some (Err.urlParse "nope") ∧
    Err.urlParse "nope" ≠ Err.numberExists "+15550001234" :=
  ⟨rfl, rfl, rfl, by decide⟩

/-- C2 (amended): re-registering an already-registered Number identity or
MessagingService SID always returns an error and leaves the whole store
unchanged; the error is the duplicate error whenever the new input passes
validation (the phone parser, the webhook-URL check, the `MG` marker),
otherwise the validation failure is reported first. -/
theorem claim_duplicate_amended (cx : Collab) (st : Store) (n : Number) (ms : MsgService)
    (hn : (st.numbersDB n.number).isSome = true)
    (hms : (st.msgSvcDB ms.id).isSome = true) :
    ((AddNumber cx st n).2 = st ∧ (∃ e, (AddNumber cx st n).1 = some e) ∧
      (cx.phoneOK n.number = true →
        (n.smsWebhookURL ≠ "" → validateURL cx n.smsWebhookURL = none) →
        (n.voiceWebhookURL ≠ "" → validateURL cx n.voiceWebhookURL = none) →
        (AddNumber cx st n).1 = some (Err.numberExists n.number))) ∧
    ((AddMsgService cx st ms).2 = st ∧ (∃ e, (AddMsgService cx st ms).1 = some e) ∧
      (goHasPre ms.id "MG" = true →
        (ms.smsWebhookURL ≠ "" → validateURL cx ms.smsWebhookURL = none) →
        (∀ x ∈ ms.numbers, cx.phoneOK x = true) →
        (AddMsgService cx st ms).1 = some (Err.svcExists ms.id))) := by
  refine ⟨⟨?_, ?_, ?_⟩, ?_, ?_, ?_⟩
  · unfold AddNumber
    split
    · rfl
    · split
      · rfl
      · split
        · rfl
        · rfl
  · unfold AddNumber
    split
    · exact ⟨_, rfl⟩
    · split
      · exact ⟨_, rfl⟩
      · split
        · exact ⟨_, rfl⟩
        · exact ⟨_, rfl⟩
  · intro hp hsms hvoice
    have h1 : (if n.smsWebhookURL ≠ "" then validateURL cx n.smsWebhookURL else none) = none := by
      by_cases hs : n.smsWebhookURL = "" <;> simp [hs, hsms]
    have h2 : (if n.voiceWebhookURL ≠ "" then validateURL cx n.voiceWebhookURL else none) = none := by
      by_cases hs : n.voiceWebhookURL = "" <;> simp [hs, hvoice]
    unfold AddNumber
    rw [h1, h2, if_neg (by simp [hp]), if_pos hn]
  · unfold AddMsgService
    split
    · rfl
    · split
      · rfl
      · split
        · rfl
        · rfl
  · unfold AddMsgService
    split
    · exact ⟨_, rfl⟩
    · split
      · exact ⟨_, rfl⟩
      · split
        · exact ⟨_, rfl⟩
        · exact ⟨_, rfl⟩
  · intro hpre hurl hphones
    have h1 : (if ms.smsWebhookURL ≠ "" then validateURL cx ms.smsWebhookURL else none) = none := by
      by_cases hs : ms.smsWebhookURL = "" <;> simp [hs, hurl]
    have h2 : ms.numbers.find? (fun s => !cx.phoneOK s) = none := by
      rw [List.find?_eq_none]
      intro x hx
      simp [hphones x hx]
    unfold AddMsgService
    rw [h1, h2, if_neg (by simp [hpre]), if_pos hms]

/-- C2 witness: in `st2` both `n1`'s identity and `msGood`'s SID are
registered; re-registering each returns the corresponding duplicate error
and leaves the store untouched. -/
theorem claim_duplicate_amended_witness :
    (st2.numbersDB n1.number).isSome = true ∧
    (st2.msgSvcDB msGood.id).isSome = true ∧
    (AddNumber collabT st2 n1).1 = some (Err.numberExists n1.number) ∧
    (AddMsgService collabT st2 msGood).1 = some (Err.svcExists msGood.id) ∧
    (AddNumber collabT st2 n1).2 = st2 ∧
    (AddMsgService collabT st2 msGood).2 = st2 := by
  have h := claim_duplicate_amended collabT st2 n1 msGood (by decide) (by decide)
  exact ⟨by decide, by decide,
    h.1.2.2 (by decide) (fun _ => by decide) (fun hv => absurd rfl hv),
    h.2.2.2 (by decide) (fun _ => by decide) (by decide),
    h.1.1, h.2.1⟩

/-- C3: `AddNumber` rejects a malformed phone number or a non-empty webhook
URL failing `validateURL`, and `AddMsgService` rejects a SID without the
`MG` marker, a non-empty service URL failing `validateURL`, or any malformed
member phone number; in every such case the returned error is a validation
error and the store is returned unchanged (the rejection precedes any
write). -/
theorem claim_validation_rejects (cx : Collab) (st : Store) (n : Number) (ms : MsgService) :
    ((cx.phoneOK n.number = false ∨
      (n.smsWebhookURL ≠ "" ∧ validateURL cx n.smsWebhookURL ≠ none) ∨
      (n.voiceWebhookURL ≠ "" ∧ validateURL cx n.voiceWebhookURL ≠ none)) →
      ∃ e, AddNumber cx st n = (some e, st) ∧ e.isValidation = true) ∧
    ((goHasPre ms.id "MG" = false ∨
      (ms.smsWebhookURL ≠ "" ∧ validateURL cx ms.smsWebhookURL ≠ none) ∨
      (∃ x ∈ ms.numbers, cx.phoneOK x = false)) →
      ∃ e, AddMsgService cx st ms = (some e, st) ∧ e.isValidation = true) := by
  constructor
  · intro hcond
    unfold AddNumber
    by_cases hp : cx.phoneOK n.number = false
    · rw [if_pos hp]
      exact ⟨_, rfl, rfl⟩
    · rw [if_neg hp]
      cases hs : (if n.smsWebhookURL ≠ "" then validateURL cx n.smsWebhookURL else none) with
      | some e =>
        refine ⟨e, rfl, ?_⟩
        have he : validateURL cx n.smsWebhookURL = some e := by
          by_cases h1 : n.smsWebhookURL = "" <;> simp_all
        exact validateURL_isValidation _ _ _ he
      | none =>
        cases hv : (if n.voiceWebhookURL ≠ "" then validateURL cx n.voiceWebhookURL else none) with
        | some e =>
          refine ⟨e, rfl, ?_⟩
          have he : validateURL cx n.voiceWebhookURL = some e := by
            by_cases h1 : n.voiceWebhookURL = "" <;> simp_all
          exact validateURL_isValidation _ _ _ he
        | none =>
          exfalso
          rcases hcond with h | ⟨h1, h2⟩ | ⟨h1, h2⟩
          · exact hp h
          · rw [if_pos h1] at hs
            exact h2 hs
          · rw [if_pos h1] at hv
            exact h2 hv
  · intro hcond
    unfold AddMsgService
    by_cases hpre : goHasPre ms.id "MG" = false
    · rw [if_pos hpre]
      exact ⟨_, rfl, rfl⟩
    · rw [if_neg hpre]
      cases hs : (if ms.smsWebhookURL ≠ "" then validateURL cx ms.smsWebhookURL else none) with
      | some e =>
        refine ⟨e, rfl, ?_⟩
        have he : validateURL cx ms.smsWebhookURL = some e := by
          by_cases h1 : ms.smsWebhookURL = "" <;> simp_all
        exact validateURL_isValidation _ _ _ he
      | none =>
        cases hf : ms.numbers.find? (fun s => !cx.phoneOK s) with
        | some x =>
          exact ⟨Err.invalidPhone x, rfl, rfl⟩
        | none =>
          exfalso
          rcases hcond with h | ⟨h1, h2⟩ | ⟨x, hx, h2⟩
          · exact hpre h
          · rw [if_pos h1] at hs
            exact h2 hs
          · rw [List.find?_eq_none] at hf
            have := hf x hx
            simp [h2] at this

/-- C3 witness: a rejected phone number, a rejected URL and a rejected SID,
each leaving the store unchanged with a validation error. -/
theorem claim_validation_rejects_witness :
    (∃ e, AddNumber collabT st0 nBadPhone = (some e, st0) ∧ e.isValidation = true) ∧
    (∃ e, AddNumber collabT st0 nBadURL = (some e, st0) ∧ e.isValidation = true) ∧
    (∃ e, AddMsgService collabT st0 { id := "XX1", numbers := [], smsWebhookURL := "" }
        = (some e, st0) ∧ e.isValidation = true) :=
  ⟨(claim_validation_rejects collabT st0 nBadPhone msGood).1 (Or.inl (by decide)),
   (claim_validation_rejects collabT st0 nBadURL msGood).1
     (Or.inr (Or.inl (by decide))),
   (claim_validation_rejects collabT st0 n1
     { id := "XX1", numbers := [], smsWebhookURL := "" }).2 (Or.inl (by decide))⟩

/-- Characterization of a successful `AddMsgService` call: the post-state is
the member-loop fold of the pre-state, and the SID was previously
unregistered. -/
theorem addMsgService_ok (cx : Collab) (st : Store) (ms : MsgService)
    (h : (AddMsgService cx st ms).1 = none) :
    (AddMsgService cx st ms).2 = ms.numbers.foldl (msLoopStep ms) st ∧
    st.msgSvcDB ms.id = none := by
  revert h
  unfold AddMsgService
  split
  · intro h
    simp at h
  · split
    · intro h
      simp at h
    · split
      · intro h
        simp at h
      · split
        · intro h
          simp at h
        · rename_i hdup
          intro _
          exact ⟨rfl, Option.not_isSome_iff_eq_none.mp (by simpa using hdup)⟩

/-- C4: after a successful `AddMsgService`, every member `Number` returned
by `numberSvc` for the service carries the service-level `SMSWebhookURL`
when that override is non-empty, and otherwise its own SMS webhook URL from
before the call (empty for auto-created members).  The well-formedness
hypothesis states the map-key invariant of the numbers table (each stored
record's identity is its key), which holds for every store the server
builds. -/
theorem claim_svc_webhook_resolution (cx : Collab) (st : Store) (ms : MsgService)
    (hwf : ∀ k m, st.numbersDB k = some m → m.number = k)
    (h : (AddMsgService cx st ms).1 = none) :
    ∀ n ∈ Store.numberSvc (AddMsgService cx st ms).2 ms.id,
      (ms.smsWebhookURL ≠ "" → n.smsWebhookURL = ms.smsWebhookURL) ∧
      (ms.smsWebhookURL = "" →
        n.smsWebhookURL = (match st.numbersDB n.number with
          | some m => m.smsWebhookURL
          | none => "")) := by
  intro n hn
  have hch := addMsgService_ok cx st ms h
  rw [hch.1] at hn
  unfold Store.numberSvc at hn
  by_cases hnil : ms.numbers = []
  · rw [hnil] at hn
    simp only [List.foldl_nil] at hn
    rw [hch.2] at hn
    simp at hn
  · rw [msLoop_msgSvcDB_self ms ms.numbers st hnil, hch.2] at hn
    simp only [Option.getD_none, Option.getD_some, List.nil_append] at hn
    rw [List.mem_filterMap] at hn
    obtain ⟨k, hk, hfk⟩ := hn
    rw [msLoop_numbersDB, if_pos hk] at hfk
    injection hfk with hfk
    subst hfk
    constructor
    · intro hov
      simp [msApply, hov]
    · intro hov
      simp only [msApply, hov, if_pos rfl]
      cases hm : st.numbersDB k with
      | some m =>
        have hk' : m.number = k := hwf k m hm
        simp [hm, hk']
      | none =>
        simp [hm, bareNumber]

/-- C4 witness: registering `msGood` (override set, fresh member) in the
empty store succeeds, and every member resolved through `numberSvc` carries
the override. -/
theorem claim_svc_webhook_resolution_witness :
    (msGood.smsWebhookURL ≠ "" →
      (Number.mk "+15550005678" "" "http://test/hook").smsWebhookURL = msGood.smsWebhookURL) ∧
    (msGood.smsWebhookURL = "" →
      (Number.mk "+15550005678" "" "http://test/hook").smsWebhookURL =
        (match st0.numbersDB (Number.mk "+15550005678" "" "http://test/hook").number with
          | some m => m.smsWebhookURL
          | none => "")) :=
  claim_svc_webhook_resolution collabT st0 msGood
    (fun _ _ hm => Option.noConfusion hm) rfl
    (Number.mk "+15550005678" "" "http://test/hook") (by decide)

/-- C5: after a successful `AddMsgService`, every member number string is
present in the numbers table and in the service's member list, and a member
that was absent before the call was auto-created as the bare record
`⟨k, "", ""⟩` (no voice webhook, no SMS webhook), to which only the
service-level override of C4/C10 is then applied (`msApply`; the record
stays exactly bare when the service has no override URL). -/
theorem claim_svc_autocreate (cx : Collab) (st : Store) (ms : MsgService)
    (h : (AddMsgService cx st ms).1 = none) :
    ∀ k ∈ ms.numbers,
      ((AddMsgService cx st ms).2.numbersDB k).isSome = true ∧
      k ∈ ((AddMsgService cx st ms).2.msgSvcDB ms.id).getD [] ∧
      (st.numbersDB k = none →
        (AddMsgService cx st ms).2.numbersDB k = some (msApply ms (bareNumber k))) := by
  intro k hk
  have hch := addMsgService_ok cx st ms h
  rw [hch.1]
  have hnil : ms.numbers ≠ [] := by
    intro hc
    rw [hc] at hk
    simp at hk
  refine ⟨?_, ?_, ?_⟩
  · rw [msLoop_numbersDB, if_pos hk]
    rfl
  · rw [msLoop_msgSvcDB_self ms ms.numbers st hnil, hch.2]
    simpa using hk
  · intro habs
    rw [msLoop_numbersDB, if_pos hk, habs]
    rfl

/-- C5 witness: registering `msPlain` (no override) in the empty store
auto-creates its fresh member as the bare record, registers it, and lists it
as a member. -/
theorem claim_svc_autocreate_witness :
    ((AddMsgService collabT st0 msPlain).2.numbersDB "+15550009999").isSome = true ∧
    "+15550009999" ∈ ((AddMsgService collabT st0 msPlain).2.msgSvcDB msPlain.id).getD [] ∧
    (st0.numbersDB "+15550009999" = none →
      (AddMsgService collabT st0 msPlain).2.numbersDB "+15550009999" =
        some (msApply msPlain (bareNumber "+15550009999"))) :=
  claim_svc_autocreate collabT st0 msPlain rfl "+15550009999" (by decide)

/-- C10 (implicit): a successful `AddMsgService` with a non-empty
service-level `SMSWebhookURL` overwrites each member's stored
`SMSWebhookURL` in the shared numbers table — a previously registered member
record is replaced by the same record with the service URL, and any
subsequent `number` lookup of a member returns the service's URL. -/
theorem claim_override_mutates_members (cx : Collab) (st : Store) (ms : MsgService)
    (hov : ms.smsWebhookURL ≠ "")
    (h : (AddMsgService cx st ms).1 = none) :
    ∀ k ∈ ms.numbers,
      (∀ m, st.numbersDB k = some m →
        Store.number (AddMsgService cx st ms).2 k =
          some { m with smsWebhookURL := ms.smsWebhookURL }) ∧
      (∀ m, Store.number (AddMsgService cx st ms).2 k = some m →
        m.smsWebhookURL = ms.smsWebhookURL) := by
  intro k hk
  have hch := addMsgService_ok cx st ms h
  unfold Store.number
  rw [hch.1, msLoop_numbersDB, if_pos hk]
  constructor
  · intro m hm
    rw [hm]
    simp [msApply, hov]
  · intro m hm
    injection hm with hm
    rw [← hm]
    simp [msApply, hov]

/-- Inductive invariant of the shutdown protocol: no panic has occurred,
`close(srv.shutdown)` ran at most once (exactly when the `sync.Once` was
consumed), the loop leaves its `for` only after `srv.shutdown` is closed,
`srv.shutdownDone` and `srv.msgCh` are closed exactly when the loop has
exited (with its `wg` fully drained), waiters appear only after a `Close`
call, and a returned `Close` call implies `srv.shutdownDone` was closed. -/
def SysInv (s : SysState) : Prop :=
  s.panicked = false ∧
  s.shutdownClosed = s.onceUsed ∧
  s.shutdownCount ≤ 1 ∧
  (s.onceUsed = true ↔ s.shutdownCount = 1) ∧
  (s.loopPhase ≠ LoopPhase.running → s.shutdownClosed = true) ∧
  (s.doneClosed = true ↔ s.loopPhase = LoopPhase.exited) ∧
  s.msgChClosed = s.doneClosed ∧
  (s.loopPhase = LoopPhase.exited → s.tasks = 0) ∧
  (0 < s.waiters → s.onceUsed = true) ∧
  (0 < s.returned → s.doneClosed = true)

theorem sysReach_inv (s : SysState) (h : SysReach s) : SysInv s := by
  induction h with
  | init =>
    unfold SysInv
    decide
  | step hr hstep ih =>
    rename_i sp tp
    obtain ⟨hp, hsc, hcnt, hiff, hrun, hdone, hmsg, hexit, hwonce, hret⟩ := ih
    cases hstep with
    | closeFirst h =>
      have hsc0 : sp.shutdownClosed = false := by rw [hsc, h]
      have hcnt0 : sp.shutdownCount = 0 := by
        have hne : sp.shutdownCount ≠ 1 := fun hc => by rw [hiff.mpr hc] at h; cases h
        omega
      refine ⟨?_, rfl, ?_, ?_, fun _ => rfl, hdone, hmsg, hexit, fun _ => rfl, hret⟩
      · show (sp.panicked || sp.shutdownClosed) = false
        rw [hp, hsc0]
        rfl
      · show sp.shutdownCount + 1 ≤ 1
        omega
      · show (true = true) ↔ sp.shutdownCount + 1 = 1
        simp [hcnt0]
    | closeAgain h =>
      exact ⟨hp, hsc, hcnt, hiff, hrun, hdone, hmsg, hexit, fun _ => h, hret⟩
    | loopExit h1 h2 =>
      have hd0 : sp.doneClosed = false := by
        cases hdc : sp.doneClosed with
        | true => rw [hdone.mp hdc] at h1; exact absurd h1 (by decide)
        | false => rfl
      refine ⟨hp, hsc, hcnt, hiff, fun _ => h2, ?_, hmsg, ?_, hwonce, hret⟩
      · show sp.doneClosed = true ↔ LoopPhase.defers = LoopPhase.exited
        rw [hd0]
        simp
      · show LoopPhase.defers = LoopPhase.exited → sp.tasks = 0
        intro hc
        exact absurd hc (by decide)
    | spawn h =>
      refine ⟨hp, hsc, hcnt, hiff, hrun, hdone, hmsg, ?_, hwonce, hret⟩
      intro hc
      have hc' : sp.loopPhase = LoopPhase.exited := hc
      rw [h] at hc'
      exact absurd hc' (by decide)
    | taskDone h =>
      refine ⟨hp, hsc, hcnt, hiff, hrun, hdone, hmsg, ?_, hwonce, hret⟩
      intro hc
      show sp.tasks - 1 = 0
      have := hexit hc
      omega
    | finishDefers h1 h2 =>
      have hd0 : sp.doneClosed = false := by
        cases hdc : sp.doneClosed with
        | true => rw [hdone.mp hdc] at h1; exact absurd h1 (by decide)
        | false => rfl
      have hm0 : sp.msgChClosed = false := by rw [hmsg, hd0]
      refine ⟨?_, hsc, hcnt, hiff, fun _ => hrun (by rw [h1]; decide), ?_, rfl, ?_,
        hwonce, fun _ => rfl⟩
      · show (sp.panicked || sp.msgChClosed || sp.doneClosed) = false
        rw [hp, hm0, hd0]
        rfl
      · show (true = true) ↔ (LoopPhase.exited = LoopPhase.exited)
        simp
      · exact fun _ => h2
    | closeReturn h1 h2 =>
      exact ⟨hp, hsc, hcnt, hiff, hrun, hdone, hmsg, hexit,
        fun hw => hwonce (Nat.lt_of_lt_of_le hw (Nat.sub_le sp.waiters 1)),
        fun _ => h1⟩

/-- Any number of pending lifecycle tasks can run to completion
(`taskDone` steps), leaving every other component of the state unchanged. -/
theorem sysSteps_drainTasks (t : Nat) : ∀ s : SysState, s.tasks = t →
    ∃ s', SysSteps s s' ∧ s'.tasks = 0 ∧ s'.loopPhase = s.loopPhase ∧
      s'.waiters = s.waiters ∧ s'.returned = s.returned ∧
      s'.doneClosed = s.doneClosed ∧ s'.msgChClosed = s.msgChClosed ∧
      s'.panicked = s.panicked := by
  induction t with
  | zero =>
    intro s ht
    exact ⟨s, Relation.ReflTransGen.refl, ht, rfl, rfl, rfl, rfl, rfl, rfl⟩
  | succ t ih =>
    intro s ht
    have hstep : SysStep s (taskDoneEff s) := SysStep.taskDone s (by omega)
    obtain ⟨s', hsteps, h0, hph, hw, hr, hd, hm, hpk⟩ :=
      ih (taskDoneEff s) (show s.tasks - 1 = t by omega)
    exact ⟨s', Relation.ReflTransGen.head hstep hsteps, h0, hph, hw, hr, hd, hm, hpk⟩

/-- Once `srv.shutdownDone` is closed, every blocked `Close` caller can
return (`closeReturn` steps). -/
theorem sysSteps_drainWaiters (w : Nat) : ∀ s : SysState, s.waiters = w →
    s.doneClosed = true →
    ∃ s', SysSteps s s' ∧ s'.waiters = 0 ∧ s'.returned = s.returned + w ∧
      s'.doneClosed = s.doneClosed ∧ s'.panicked = s.panicked := by
  induction w with
  | zero =>
    intro s hw _
    exact ⟨s, Relation.ReflTransGen.refl, hw, rfl, rfl, rfl⟩
  | succ w ih =>
    intro s hw hd
    have hstep : SysStep s (closeReturnEff s) := SysStep.closeReturn s hd (by omega)
    obtain ⟨s', hsteps, h0, hr, hd', hpk⟩ :=
      ih (closeReturnEff s) (show s.waiters - 1 = w by omega) hd
    have hr' : s'.returned = s.returned + 1 + w := hr
    exact ⟨s', Relation.ReflTransGen.head hstep hsteps, h0, by omega, hd', hpk⟩

/-- From the loop's defer phase (with the channels still open and no panic),
the system can always drain its tasks and close `srv.msgCh` and
`srv.shutdownDone`, without touching waiters, returns, or the panic flag. -/
theorem sysSteps_fromDefers (s : SysState) (hph : s.loopPhase = LoopPhase.defers)
    (hmsg : s.msgChClosed = false) (hdone : s.doneClosed = false)
    (hp : s.panicked = false) :
    ∃ s', SysSteps s s' ∧ s'.doneClosed = true ∧ s'.panicked = false ∧
      s'.waiters = s.waiters ∧ s'.returned = s.returned := by
  obtain ⟨s1, hsteps1, ht0, hph1, hw1, hr1, hd1, hm1, hp1⟩ :=
    sysSteps_drainTasks s.tasks s rfl
  have hstep2 : SysStep s1 (finishDefersEff s1) :=
    SysStep.finishDefers s1 (by rw [hph1, hph]) ht0
  refine ⟨finishDefersEff s1, hsteps1.tail hstep2, rfl, ?_, hw1, hr1⟩
  show (s1.panicked || s1.msgChClosed || s1.doneClosed) = false
  rw [hp1, hp, hm1, hmsg, hd1, hdone]
  rfl

/-- C7: in every reachable state of the shutdown protocol, no channel was
ever double-closed (no panic) and the shutdown effect (`close(srv.shutdown)`)
ran at most once; whenever any `Close` call has returned, the effect ran
exactly once, the loop has exited with all lifecycle tasks drained, and
`srv.msgCh` and `srv.shutdownDone` are closed; and whenever `Close` callers
are blocked, the system can always proceed (no deadlock) until every one of
them has returned, still without a panic. -/
theorem claim_close_idempotent (s : SysState) (h : SysReach s) :
    s.panicked = false ∧
    s.shutdownCount ≤ 1 ∧
    (0 < s.returned →
      s.shutdownCount = 1 ∧ s.loopPhase = LoopPhase.exited ∧ s.doneClosed = true ∧
      s.msgChClosed = true ∧ s.tasks = 0) ∧
    (0 < s.waiters →
      ∃ s', SysSteps s s' ∧ s'.doneClosed = true ∧ s'.waiters = 0 ∧
        s'.returned = s.returned + s.waiters ∧ s'.panicked = false) := by
  obtain ⟨hp, hsc, hcnt, hiff, hrun, hdone, hmsg, hexit, hwonce, hret⟩ := sysReach_inv s h
  refine ⟨hp, hcnt, ?_, ?_⟩
  · intro hr0
    have hd := hret hr0
    have hex := hdone.mp hd
    have ht := hexit hex
    have hclosed : s.shutdownClosed = true := hrun (by rw [hex]; decide)
    have honce : s.onceUsed = true := by rw [← hsc]; exact hclosed
    exact ⟨hiff.mp honce, hex, hd, by rw [hmsg, hd], ht⟩
  · intro hw0
    have honce := hwonce hw0
    have hclosed : s.shutdownClosed = true := by rw [hsc]; exact honce
    cases hph : s.loopPhase with
    | running =>
      have hd0 : s.doneClosed = false := by
        cases hdc : s.doneClosed with
        | true => rw [hdone.mp hdc] at hph; exact absurd hph (by decide)
        | false => rfl
      have hm0 : s.msgChClosed = false := by rw [hmsg, hd0]
      have hstep1 : SysStep s (loopExitEff s) := SysStep.loopExit s hph hclosed
      obtain ⟨s', hsteps, hd', hp', hw', hr'⟩ :=
        sysSteps_fromDefers (loopExitEff s) rfl hm0 hd0 hp
      obtain ⟨s2, hsteps2, hw2, hr2, hd2, hp2⟩ :=
        sysSteps_drainWaiters s'.waiters s' rfl hd'
      have hw'' : s'.waiters = s.waiters := hw'
      have hr'' : s'.returned = s.returned := hr'
      refine ⟨s2, Relation.ReflTransGen.trans
        (Relation.ReflTransGen.head hstep1 hsteps) hsteps2,
        by rw [hd2, hd'], hw2, by omega, by rw [hp2, hp']⟩
    | defers =>
      have hd0 : s.doneClosed = false := by
        cases hdc : s.doneClosed with
        | true => rw [hdone.mp hdc] at hph; exact absurd hph (by decide)
        | false => rfl
      have hm0 : s.msgChClosed = false := by rw [hmsg, hd0]
      obtain ⟨s', hsteps, hd', hp', hw', hr'⟩ :=
        sysSteps_fromDefers s hph hm0 hd0 hp
      obtain ⟨s2, hsteps2, hw2, hr2, hd2, hp2⟩ :=
        sysSteps_drainWaiters s'.waiters s' rfl hd'
      exact ⟨s2, Relation.ReflTransGen.trans hsteps hsteps2,
        by rw [hd2, hd'], hw2, by rw [hr2, hr', hw'], by rw [hp2, hp']⟩
    | exited =>
      have hd : s.doneClosed = true := hdone.mpr hph
      obtain ⟨s2, hsteps2, hw2, hr2, hd2, hp2⟩ :=
        sysSteps_drainWaiters s.waiters s rfl hd
      exact ⟨s2, hsteps2, by rw [hd2, hd], hw2, hr2, by rw [hp2, hp]⟩

/-- C7 witness: the state right after a first `Close` call (one blocked
caller) is reachable; instantiating the claim there gives no panic, a single
shutdown effect, and a full drain to the caller's return. -/
theorem claim_close_idempotent_witness :
    (closeFirstEff initState).panicked = false ∧
    (closeFirstEff initState).shutdownCount ≤ 1 ∧
    (0 < (closeFirstEff initState).returned →
      (closeFirstEff initState).shutdownCount = 1 ∧
      (closeFirstEff initState).loopPhase = LoopPhase.exited ∧
      (closeFirstEff initState).doneClosed = true ∧
      (closeFirstEff initState).msgChClosed = true ∧
      (closeFirstEff initState).tasks = 0) ∧
    (0 < (closeFirstEff initState).waiters →
      ∃ s', SysSteps (closeFirstEff initState) s' ∧ s'.doneClosed = true ∧
        s'.waiters = 0 ∧
        s'.returned = (closeFirstEff initState).returned + (closeFirstEff initState).waiters ∧
        s'.panicked = false) :=
  claim_close_idempotent (closeFirstEff initState)
    (SysReach.step SysReach.init (SysStep.closeFirst initState rfl))

/-- Code point of a decimal digit character: `'0'` is 48. -/
theorem natDigitChar_toNat (d : Nat) (h : d < 10) : (natDigitChar d).toNat = 48 + d := by
  interval_cases d <;> rfl

theorem decFrom_append (a : Nat) (l1 l2 : List Char) :
    decFrom a (l1 ++ l2) = decFrom (decFrom a l1) l2 := by
  simp only [decFrom, List.foldl_append]

theorem decFrom_replicate_zero (k : Nat) : decFrom 0 (List.replicate k '0') = 0 := by
  induction k with
  | zero => rfl
  | succ k ih =>
    rw [List.replicate_succ]
    show decFrom (0 * 10 + ('0'.toNat - 48)) (List.replicate k '0') = 0
    have h0 : 0 * 10 + ('0'.toNat - 48) = 0 := by decide
    rw [h0, ih]

/-- A decimal rendering folded back through `decFrom` recovers the number
(with the accumulator scaled by the rendering's width). -/
theorem decFrom_natDecimal (n : Nat) : ∀ a : Nat,
    decFrom a (natDecimal n) = a * 10 ^ (natDecimal n).length + n := by
  induction n using Nat.strong_induction_on with
  | _ n ih =>
    intro a
    by_cases h : n < 10
    · rw [natDecimal, dif_pos h]
      simp only [decFrom, List.foldl_cons, List.foldl_nil, List.length_singleton, pow_one]
      rw [natDigitChar_toNat n h]
      omega
    · rw [natDecimal, dif_neg h]
      rw [decFrom_append, ih (n / 10) (Nat.div_lt_self (by omega) (by omega)) a]
      simp only [decFrom, List.foldl_cons, List.foldl_nil, List.length_append,
        List.length_singleton]
      rw [natDigitChar_toNat (n % 10) (Nat.mod_lt n (by omega))]
      have hmod : n / 10 * 10 + n % 10 = n := by omega
      have h48 : 48 + n % 10 - 48 = n % 10 := by omega
      rw [h48]
      calc (a * 10 ^ (natDecimal (n / 10)).length + n / 10) * 10 + n % 10
          = a * (10 ^ (natDecimal (n / 10)).length * 10) + (n / 10 * 10 + n % 10) := by
            ring
        _ = a * 10 ^ ((natDecimal (n / 10)).length + 1) + n := by
            rw [hmod, pow_succ]

/-- `sprintf032` decodes back to its argument: the zero padding contributes
nothing. -/
theorem decodeDecimal_sprintf032 (n : Nat) : decodeDecimal (sprintf032 n).data = n := by
  show decFrom 0 (List.replicate (32 - (natDecimal n).length) '0' ++ natDecimal n) = n
  rw [decFrom_append, decFrom_replicate_zero, decFrom_natDecimal]
  omega

/-- `%032d` renderings of distinct numbers are distinct strings. -/
theorem sprintf032_inj (m n : Nat) (h : sprintf032 m = sprintf032 n) : m = n := by
  have hd := congrArg (fun s => decodeDecimal s.data) h
  simpa [decodeDecimal_sprintf032] using hd

theorem natDecimal_length_le (n : Nat) : ∀ k : Nat, 1 ≤ k → n < 10 ^ k →
    (natDecimal n).length ≤ k := by
  induction n using Nat.strong_induction_on with
  | _ n ih =>
    intro k hk h
    by_cases hn : n < 10
    · rw [natDecimal, dif_pos hn]
      simpa using hk
    · rw [natDecimal, dif_neg hn]
      simp only [List.length_append, List.length_singleton]
      have hk2 : 2 ≤ k := by
        by_contra hc
        have hk1 : k = 1 := by omega
        rw [hk1, pow_one] at h
        exact hn h
      have hpow : 10 ^ k = 10 ^ (k - 1) * 10 := by
        conv_lhs => rw [show k = (k - 1) + 1 by omega]
        rw [pow_succ]
      have hdiv : n / 10 < 10 ^ (k - 1) := by
        rw [Nat.div_lt_iff_lt_mul (by omega)]
        omega
      have hlen := ih (n / 10) (Nat.div_lt_self (by omega) (by omega)) (k - 1) (by omega) hdiv
      omega

/-- For every `uint64` value the `%032d` rendering is exactly 32 characters
wide. -/
theorem sprintf032_length (n : Nat) (h : n < 10 ^ 32) : (sprintf032 n).length = 32 := by
  have hle := natDecimal_length_le n 32 (by omega) h
  show (List.replicate (32 - (natDecimal n).length) '0' ++ natDecimal n).length = 32
  simp only [List.length_append, List.length_replicate]
  omega

/-- The counter after `k` increments is `k` reduced modulo `2^64`. -/
theorem idCounterAfter_eq (k : Nat) : idCounterAfter k = k % uint64Mod := by
  induction k with
  | zero => rfl
  | succ k ih =>
    show (idCounterAfter k + 1) % uint64Mod = (k + 1) % uint64Mod
    rw [ih, Nat.mod_add_mod]

/-- Closed form of the `(k+1)`-st issued ID. -/
theorem issuedID_eq (pre : String) (k : Nat) :
    issuedID pre k = pre ++ sprintf032 ((k + 1) % uint64Mod) := by
  show pre ++ sprintf032 ((idCounterAfter k + 1) % uint64Mod) = _
  rw [idCounterAfter_eq, Nat.mod_add_mod]

theorem string_append_cancel (pre a b : String) (h : pre ++ a = pre ++ b) : a = b := by
  have hd : pre.data ++ a.data = pre.data ++ b.data := by
    have h1 := congrArg String.data h
    simpa [String.data_append] using h1
  have h2 := List.append_cancel_left hd
  cases a
  cases b
  exact congrArg String.mk h2

/-- C6 counterexample: because `srv.id` is a `uint64`, the counter wraps
after `2^64` increments — call number `2^64 + 1` (0-indexed `2^64`) on a
fresh server issues the very same ID string as the first call, so IDs are
not pairwise distinct over the server's lifetime for every call sequence. -/
theorem claim_nextid_cex :
    issuedID "SM" 0 = issuedID "SM" uint64Mod ∧ (0 : Nat) ≠ uint64Mod := by
  constructor
  · rw [issuedID_eq, issuedID_eq]
    have hw : (uint64Mod + 1) % uint64Mod = (0 + 1) % uint64Mod := by
      rw [Nat.add_mod_left, Nat.zero_add]
    rw [hw]
  · decide

/-- C6 (amended): every issued ID is the given prefix followed by the
32-digit zero-padded decimal rendering of the post-increment counter, and
within the first `2^64 - 1` calls of a server's lifetime the numeric parts
strictly increase and all issued IDs are pairwise distinct; the `uint64`
counter wraps after `2^64` increments, at which point IDs repeat. -/
theorem claim_nextid_amended (pre : String) (i j : Nat) (hij : i < j)
    (hj : j + 1 < uint64Mod) :
    issuedID pre i = pre ++ sprintf032 (i + 1) ∧
    (sprintf032 (i + 1)).length = 32 ∧
    decodeDecimal (sprintf032 (i + 1)).data < decodeDecimal (sprintf032 (j + 1)).data ∧
    issuedID pre i ≠ issuedID pre j := by
  have hi : (i + 1) % uint64Mod = i + 1 := Nat.mod_eq_of_lt (by omega)
  have hjm : (j + 1) % uint64Mod = j + 1 := Nat.mod_eq_of_lt hj
  have hbound : uint64Mod < 10 ^ 32 := by norm_num [uint64Mod]
  refine ⟨?_, ?_, ?_, ?_⟩
  · rw [issuedID_eq, hi]
  · exact sprintf032_length _ (by omega)
  · rw [decodeDecimal_sprintf032, decodeDecimal_sprintf032]
    omega
  · rw [issuedID_eq, issuedID_eq, hi, hjm]
    intro hc
    have := sprintf032_inj _ _ (string_append_cancel _ _ _ hc)
    omega

/-- C6 witness: the first two IDs of a fresh server with the `SM` marker are
well-formed, numerically increasing and distinct. -/
theorem claim_nextid_amended_witness :
    (0 : Nat) < 1 ∧ 1 + 1 < uint64Mod ∧
    (issuedID "SM" 0 = "SM" ++ sprintf032 (0 + 1) ∧
     (sprintf032 (0 + 1)).length = 32 ∧
     decodeDecimal (sprintf032 (0 + 1)).data < decodeDecimal (sprintf032 (1 + 1)).data ∧
     issuedID "SM" 0 ≠ issuedID "SM" 1) :=
  ⟨by decide, by decide, claim_nextid_amended "SM" 0 1 (by decide) (by decide)⟩

/-- C10 witness: `n1` is registered in `st1` with its own URL
`http://test/hook`; registering `msOverride` (override `http://svc/hook`)
succeeds and rewrites `n1`'s stored record, so lookup returns the service
URL. -/
theorem claim_override_mutates_members_witness :
    (∀ m, st1.numbersDB "+15550001234" = some m →
      Store.number (AddMsgService collabT st1 msOverride).2 "+15550001234" =
        some { m with smsWebhookURL := msOverride.smsWebhookURL }) ∧
    (∀ m, Store.number (AddMsgService collabT st1 msOverride).2 "+15550001234" = some m →
      m.smsWebhookURL = msOverride.smsWebhookURL) :=
  claim_override_mutates_members collabT st1 msOverride (by decide) rfl
    "+15550001234" (by decide)

/-- Progress of one `WaitInFlight` call, following server.go: the caller
hands a fresh channel `ch` to the loop (`srv.waitInFlight <- ch`), the
loop's `case ch := <-srv.waitInFlight` branch spawns a watcher goroutine
running `wg.Wait(); close(ch)`, and the caller returns `nil` (success) once
`<-ch` fires.  Phases: the watcher is blocked in `wg.Wait()`; `wg.Wait()`
returned (the counter was zero at that instant); `close(ch)` executed; the
caller was released and returned success.  The `ctx.Done()` branches of
`WaitInFlight` return `ctx.Err()` — not success — so they play no part in
this claim and are not modelled. -/
inductive WPhase where
  | spawned
  | zeroSeen
  | chClosed
  | returned
deriving DecidableEq, Repr

/-- One `WaitInFlight` call received by the loop.  `snapshot` is the ghost
count of lifecycle tasks the loop had received (`wg.Add(1)` executed) when
it received this call's channel: because `srv.outboundMsgCh` is unbuffered,
every task whose submission completed before the `WaitInFlight` call was
already received by the loop, so its index is below `snapshot`. -/
structure Watcher where
  snapshot : Nat
  phase : WPhase
deriving DecidableEq, Repr

/-- The in-flight-tracking side of `loop`/`WaitInFlight` (companion of
`SysState`, which projects the shutdown side of the same loop):
`submitted` counts lifecycle tasks received so far (task `i` is the
`(i+1)`-st received, indices are never reused), `active` lists the indices
of tasks whose `wg.Done()` has not yet run — so the `wg` counter is
`active.length` and `wg.Wait()` can return exactly when `active = []` —
and `watchers` lists the `WaitInFlight` calls the loop has received. -/
structure WState where
  loopRunning : Bool
  submitted : Nat
  active : List Nat
  watchers : List Watcher
deriving DecidableEq, Repr

/-- The state at `NewServer`: loop running, no tasks, no wait calls. -/
def initW : WState :=
  { loopRunning := true, submitted := 0, active := [], watchers := [] }

/-- One interleaving step of the in-flight protocol.  `spawn` is the loop's
`case sms := <-srv.outboundMsgCh` branch (`wg.Add(1)` plus goroutine
launch), `taskDone` a lifecycle goroutine's `wg.Done()`, `waitRequest` the
loop's `case ch := <-srv.waitInFlight` branch, `watcherZero` the watcher's
`wg.Wait()` returning — enabled exactly when the counter is zero —
`chClose` its `close(ch)`, `waitReturn` the caller's `<-ch` completing with
a `nil` return, and `loopStop` the loop leaving its `for` on shutdown. -/
inductive WStep : WState → WState → Prop
  | spawn (s : WState) (h : s.loopRunning = true) :
      WStep s { s with submitted := s.submitted + 1, active := s.active ++ [s.submitted] }
  | taskDone (s : WState) (i : Nat) (h : i ∈ s.active) :
      WStep s { s with active := s.active.erase i }
  | waitRequest (s : WState) (h : s.loopRunning = true) :
      WStep s { s with watchers := s.watchers ++ [⟨s.submitted, WPhase.spawned⟩] }
  | watcherZero (s : WState) (j : Nat) (w : Watcher) (hj : s.watchers[j]? = some w)
      (hw : w.phase = WPhase.spawned) (hz : s.active = []) :
      WStep s { s with watchers := s.watchers.set j ⟨w.snapshot, WPhase.zeroSeen⟩ }
  | chClose (s : WState) (j : Nat) (w : Watcher) (hj : s.watchers[j]? = some w)
      (hw : w.phase = WPhase.zeroSeen) :
      WStep s { s with watchers := s.watchers.set j ⟨w.snapshot, WPhase.chClosed⟩ }
  | waitReturn (s : WState) (j : Nat) (w : Watcher) (hj : s.watchers[j]? = some w)
      (hw : w.phase = WPhase.chClosed) :
      WStep s { s with watchers := s.watchers.set j ⟨w.snapshot, WPhase.returned⟩ }
  | loopStop (s : WState) : WStep s { s with loopRunning := false }

/-- States of the in-flight protocol reachable from the fresh server. -/
inductive WReach : WState → Prop
  | init : WReach initW
  | step {s t : WState} : WReach s → WStep s t → WReach t

/-- Inductive invariant of the in-flight protocol: active task indices were
issued; every wait call's snapshot is below the submission counter; and once
a wait call's watcher has observed the zero counter (any phase past
`spawned`), no task submitted before that call is ever active again —
fresh submissions always get indices at or above the snapshot. -/
def WInv (s : WState) : Prop :=
  (∀ i ∈ s.active, i < s.submitted) ∧
  (∀ w ∈ s.watchers, w.snapshot ≤ s.submitted) ∧
  (∀ w ∈ s.watchers, w.phase ≠ WPhase.spawned → ∀ i ∈ s.active, w.snapshot ≤ i)

theorem wReach_inv (s : WState) (h : WReach s) : WInv s := by
  induction h with
  | init =>
    refine ⟨?_, ?_, ?_⟩ <;> intro x hx <;> simp [initW] at hx
  | step hr hstep ih =>
    rename_i sp tp
    obtain ⟨h1, h2, h3⟩ := ih
    cases hstep with
    | spawn h =>
      refine ⟨?_, ?_, ?_⟩
      · intro i hi
        have hi' : i ∈ sp.active ++ [sp.submitted] := hi
        show i < sp.submitted + 1
        rcases List.mem_append.mp hi' with hO | hN
        · have := h1 i hO
          omega
        · have := List.mem_singleton.mp hN
          omega
      · intro w hw
        have := h2 w hw
        show w.snapshot ≤ sp.submitted + 1
        omega
      · intro w hw hph i hi
        have hi' : i ∈ sp.active ++ [sp.submitted] := hi
        rcases List.mem_append.mp hi' with hO | hN
        · exact h3 w hw hph i hO
        · have hEq := List.mem_singleton.mp hN
          have := h2 w hw
          omega
    | taskDone i h =>
      refine ⟨?_, h2, ?_⟩
      · intro x hx
        have hx' : x ∈ sp.active.erase i := hx
        exact h1 x (List.mem_of_mem_erase hx')
      · intro w hw hph x hx
        have hx' : x ∈ sp.active.erase i := hx
        exact h3 w hw hph x (List.mem_of_mem_erase hx')
    | waitRequest h =>
      refine ⟨h1, ?_, ?_⟩
      · intro w hw
        have hw' : w ∈ sp.watchers ++ [⟨sp.submitted, WPhase.spawned⟩] := hw
        rcases List.mem_append.mp hw' with hO | hN
        · exact h2 w hO
        · have hEq : w = ⟨sp.submitted, WPhase.spawned⟩ := List.mem_singleton.mp hN
          subst hEq
          exact Nat.le_refl _
      · intro w hw hph i hi
        have hw' : w ∈ sp.watchers ++ [⟨sp.submitted, WPhase.spawned⟩] := hw
        rcases List.mem_append.mp hw' with hO | hN
        · exact h3 w hO hph i hi
        · have hEq : w = ⟨sp.submitted, WPhase.spawned⟩ := List.mem_singleton.mp hN
          subst hEq
          exact absurd rfl hph
    | watcherZero j w hj hw hz =>
      have hwmem : w ∈ sp.watchers := List.getElem?_mem hj
      refine ⟨h1, ?_, ?_⟩
      · intro w' hw'
        have hw'' : w' ∈ sp.watchers.set j ⟨w.snapshot, WPhase.zeroSeen⟩ := hw'
        rcases List.mem_or_eq_of_mem_set hw'' with hO | hN
        · exact h2 w' hO
        · subst hN
          exact h2 w hwmem
      · intro w' hw' hph i hi
        have hi' : i ∈ sp.active := hi
        rw [hz] at hi'
        simp at hi'
    | chClose j w hj hw =>
      have hwmem : w ∈ sp.watchers := List.getElem?_mem hj
      refine ⟨h1, ?_, ?_⟩
      · intro w' hw'
        have hw'' : w' ∈ sp.watchers.set j ⟨w.snapshot, WPhase.chClosed⟩ := hw'
        rcases List.mem_or_eq_of_mem_set hw'' with hO | hN
        · exact h2 w' hO
        · subst hN
          exact h2 w hwmem
      · intro w' hw' hph i hi
        have hi' : i ∈ sp.active := hi
        have hw'' : w' ∈ sp.watchers.set j ⟨w.snapshot, WPhase.chClosed⟩ := hw'
        rcases List.mem_or_eq_of_mem_set hw'' with hO | hN
        · exact h3 w' hO hph i hi'
        · subst hN
          exact h3 w hwmem (by rw [hw]; decide) i hi'
    | waitReturn j w hj hw =>
      have hwmem : w ∈ sp.watchers := List.getElem?_mem hj
      refine ⟨h1, ?_, ?_⟩
      · intro w' hw'
        have hw'' : w' ∈ sp.watchers.set j ⟨w.snapshot, WPhase.returned⟩ := hw'
        rcases List.mem_or_eq_of_mem_set hw'' with hO | hN
        · exact h2 w' hO
        · subst hN
          exact h2 w hwmem
      · intro w' hw' hph i hi
        have hi' : i ∈ sp.active := hi
        have hw'' : w' ∈ sp.watchers.set j ⟨w.snapshot, WPhase.returned⟩ := hw'
        rcases List.mem_or_eq_of_mem_set hw'' with hO | hN
        · exact h3 w' hO hph i hi'
        · subst hN
          exact h3 w hwmem (by rw [hw]; decide) i hi'
    | loopStop =>
      exact ⟨h1, h2, h3⟩

/-- A successfully returned `WaitInFlight` call with a task submitted after
its snapshot still running: request received at zero tasks, watcher sees the
zero counter, channel closed, caller returned, then one submission. -/
def wAfter : WState :=
  { loopRunning := true, submitted := 1, active := [0],
    watchers := [⟨0, WPhase.returned⟩] }

theorem wReach_wAfter : WReach wAfter :=
  WReach.step
    (WReach.step
      (WReach.step
        (WReach.step
          (WReach.step WReach.init (WStep.waitRequest initW rfl))
          (WStep.watcherZero
            { initW with watchers := [⟨0, WPhase.spawned⟩] } 0
            ⟨0, WPhase.spawned⟩ rfl rfl rfl))
        (WStep.chClose
          { initW with watchers := [⟨0, WPhase.zeroSeen⟩] } 0
          ⟨0, WPhase.zeroSeen⟩ rfl rfl))
      (WStep.waitReturn
        { initW with watchers := [⟨0, WPhase.chClosed⟩] } 0
        ⟨0, WPhase.chClosed⟩ rfl rfl))
    (WStep.spawn
      { initW with watchers := [⟨0, WPhase.returned⟩] } rfl)

/-- C9: in every reachable state of the in-flight protocol, every
`WaitInFlight` call that has returned success has all lifecycle tasks
submitted to the coordinator before the call (index below its snapshot)
completed — submitted and no longer active — and this already holds at the
very state in which the call returns; whereas tasks submitted concurrently
with or after the call are not guaranteed to be included: a reachable state
exists with a returned call and a later-submitted task still active. -/
theorem claim_wait_quiescent (s : WState) (h : WReach s) :
    (∀ w ∈ s.watchers, w.phase = WPhase.returned →
      ∀ i, i < w.snapshot → i < s.submitted ∧ i ∉ s.active) ∧
    (∃ t, WReach t ∧ ∃ w ∈ t.watchers, w.phase = WPhase.returned ∧
      ∃ i, w.snapshot ≤ i ∧ i ∈ t.active) := by
  obtain ⟨h1, h2, h3⟩ := wReach_inv s h
  constructor
  · intro w hw hret i hi
    constructor
    · have := h2 w hw
      omega
    · intro hact
      have := h3 w hw (by rw [hret]; decide) i hact
      omega
  · exact ⟨wAfter, wReach_wAfter, ⟨0, WPhase.returned⟩, by decide, rfl,
      0, by decide, by decide⟩

/-- C9 witness: in the concrete reachable state `wAfter` the returned wait
call covers all pre-call tasks (vacuously many: its snapshot is 0), while
the task submitted after it is still active. -/
theorem claim_wait_quiescent_witness :
    ((∀ w ∈ wAfter.watchers, w.phase = WPhase.returned →
      ∀ i, i < w.snapshot → i < wAfter.submitted ∧ i ∉ wAfter.active) ∧
     (∃ t, WReach t ∧ ∃ w ∈ t.watchers, w.phase = WPhase.returned ∧
       ∃ i, w.snapshot ≤ i ∧ i ∈ t.active)) :=
  claim_wait_quiescent wAfter wReach_wAfter
